import Mathlib

/-!
Verification development for the PyRedis key-value store (src/pyredis.py).

The store is embedded shallowly:
* Python dicts become association lists with unique keys; `del` on a dict is
  modelled as removing every binding of the key (on states with unique keys,
  the only reachable ones in Python, this coincides with removing the single
  binding, and it makes the lookup lemmas hypothesis-free).
* `time.time()` becomes an explicit integer parameter `now`; timestamps and
  TTLs are integers (the claims only use strict and non-strict comparisons).
* The file system becomes an explicit field of a `World` record holding the
  content of the single dump file plus a count of write operations, so that
  both "the file now holds X" and "no write happened" are statable.
* Exceptions that escape a method become an `Option PyError` result paired
  with the state the method leaves behind, so that a partial overwrite that
  happens before the exception is visible.
-/

set_option autoImplicit false

/-- Lookup in a Python dict modelled as an association list: the first
binding of the key, as `d.get(k)` / `d[k]` find it. -/
def dictGet {β : Type} (d : List (String × β)) (k : String) : Option β :=
  match d with
  | [] => none
  | (k', v) :: rest => if k' = k then some v else dictGet rest k

/-- Membership test, as Python `k in d`. -/
def dictContains {β : Type} (d : List (String × β)) (k : String) : Bool :=
  (dictGet d k).isSome

/-- Assignment `d[k] = v`: replace the first binding of `k` in place, or
append a fresh binding at the end (Python dicts keep insertion order). -/
def dictSet {β : Type} (d : List (String × β)) (k : String) (v : β) :
    List (String × β) :=
  match d with
  | [] => [(k, v)]
  | (k', v') :: rest =>
      if k' = k then (k, v) :: rest else (k', v') :: dictSet rest k v

/-- Deletion `del d[k]`: drop every binding of `k` (identical to dropping
the unique one on genuine dict states). -/
def dictDel {β : Type} (d : List (String × β)) (k : String) :
    List (String × β) :=
  match d with
  | [] => []
  | (k', v') :: rest =>
      if k' = k then dictDel rest k else (k', v') :: dictDel rest k

/-- The ASCII whitespace characters recognised by Python str.split(). -/
def pyIsSpace (c : Char) : Bool :=
  c = ' ' || c = Char.ofNat 9 || c = Char.ofNat 10 || c = Char.ofNat 13 ||
  c = Char.ofNat 11 || c = Char.ofNat 12

/-- Python str.split() with no argument: maximal runs of non-whitespace,
empty tokens never produced.  `cur` is the current token, reversed. -/
def splitWsAux (cur : List Char) (s : List Char) : List (List Char) :=
  match s with
  | [] => if cur.isEmpty then [] else [cur.reverse]
  | c :: rest =>
      if pyIsSpace c then
        (if cur.isEmpty then [] else [cur.reverse]) ++ splitWsAux [] rest
      else
        splitWsAux (c :: cur) rest

/-- Python kv.split() on the character list of kv. -/
def splitWs (s : List Char) : List (List Char) :=
  splitWsAux [] s

/-- Python kv.split(sep) specialised to the separator comma-space,
splitting at every (leftmost-first) occurrence. -/
def splitCS (s : List Char) : List (List Char) :=
  match s with
  | [] => [[]]
  | ',' :: ' ' :: rest => [] :: splitCS rest
  | c :: rest =>
      match splitCS rest with
      | [] => [[c]]
      | t :: ts => (c :: t) :: ts

/-- Python substring test `p in s` on character lists. -/
def listHasSub (p : List Char) : List Char → Bool
  | [] => p.isEmpty
  | c :: rest => p.isPrefixOf (c :: rest) || listHasSub p rest

/-- The comma-space separator of pyredis.py line 35. -/
def commaSpace : List Char := [',', ' ']

/-- The pair tokenizer of PyRedis.set (line 35):
kv.split(comma-space) if comma-space occurs in kv, else kv.split();
the unpacking `key, value = ...` succeeds exactly when the token list has
length two, and raises ValueError otherwise (modelled as `none`). -/
def decodePair (kv : String) : Option (String × String) :=
  let cs := kv.toList
  let toks := if listHasSub commaSpace cs then splitCS cs else splitWs cs
  match toks with
  | [k, v] => some (⟨k⟩, ⟨v⟩)
  | _ => none

example : decodePair ("key value") = some (⟨['k','e','y']⟩, ⟨['v','a','l','u','e']⟩) := by
  decide

example : decodePair ("a b c") = none := by decide

example : decodePair ("a, b c") = some (⟨['a']⟩, ⟨['b',' ','c']⟩) := by decide

/-- The mutable fields of a PyRedis instance (pyredis.py lines 20-24). -/
structure PyRedis where
  store : List (String × String)
  expirations : List (String × Int)
  auto_save_enabled : Bool
  expiration_time : Int
  verbose : Bool
  deriving DecidableEq, Repr

/-- A well-formed JSON document as load inspects it: the two top-level
fields, each possibly missing (a missing field makes `data[field]` raise
KeyError). -/
structure Snapshot where
  storeField : Option (List (String × String))
  expirationsField : Option (List (String × Int))
  deriving DecidableEq, Repr

/-- The content of the dump file: absent (open raises FileNotFoundError),
present but not valid JSON (json.load raises JSONDecodeError), or a parsed
JSON document. -/
inductive FileState where
  | missing
  | notJson
  | json (doc : Snapshot)
  deriving DecidableEq, Repr

/-- Exceptions that escape a PyRedis method to the caller. -/
inductive PyError where
  | jsonDecodeError
  | keyError (field : String)
  deriving DecidableEq, Repr

/-- A PyRedis instance together with its external world: the dump file and
a count of file write operations. -/
structure World where
  redis : PyRedis
  file : FileState
  writeCount : Nat
  deriving DecidableEq, Repr

namespace PyRedis

/-- A freshly constructed PyRedis() with the default arguments
(pyredis.py lines 12-24). -/
def init : PyRedis :=
  { store := []
    expirations := []
    auto_save_enabled := true
    expiration_time := 365 * 24 * 60 * 60
    verbose := true }

/-- The JSON document that save writes (pyredis.py lines 102-107):
an object with the two fields store and expirations. -/
def serialize (r : PyRedis) : FileState :=
  .json { storeField := some r.store, expirationsField := some r.expirations }

/-- PyRedis.save (lines 96-109): overwrite the dump file with the
serialized current state.  One write operation is performed. -/
def save (w : World) : World :=
  { w with file := serialize w.redis, writeCount := w.writeCount + 1 }

/-- The per-pair loop body of PyRedis.set (lines 33-44): decode each pair;
on success store the value and set the expiration to now plus the TTL,
defaulting to the configured expiration_time; on ValueError (a pair that
does not decode into exactly two tokens) skip the pair and continue. -/
def setPairs (r : PyRedis) (now : Int) (ttl : Option Int) :
    List String → PyRedis
  | [] => r
  | kv :: rest =>
      match decodePair kv with
      | some (key, value) =>
          let ttlv := ttl.getD r.expiration_time
          setPairs
            { r with
              store := dictSet r.store key value
              expirations := dictSet r.expirations key (now + ttlv) }
            now ttl rest
      | none => setPairs r now ttl rest

/-- PyRedis.set (lines 26-47): process the batch, then save once if
auto-save is enabled. -/
def set (w : World) (now : Int) (key_values : List String) (ttl : Option Int) :
    World :=
  let w' := { w with redis := setPairs w.redis now ttl key_values }
  if w'.redis.auto_save_enabled then save w' else w'

/-- PyRedis._is_expired (lines 85-94): a key with no expirations entry is
never expired; otherwise expired iff now is strictly past the stored
timestamp. -/
def is_expired (r : PyRedis) (now : Int) (key : String) : Bool :=
  match dictGet r.expirations key with
  | none => false
  | some t => now > t

/-- PyRedis.delete (lines 66-83): if the key is in store, remove it there
and, when present, from expirations; otherwise change nothing.  In either
case save afterwards if auto-save is enabled. -/
def delete (w : World) (key : String) : World :=
  let r := w.redis
  let r' :=
    if dictContains r.store key then
      { r with
        store := dictDel r.store key
        expirations :=
          if dictContains r.expirations key then dictDel r.expirations key
          else r.expirations }
    else r
  let w' := { w with redis := r' }
  if r'.auto_save_enabled then save w' else w'

/-- PyRedis.get (lines 49-64): if the key is expired, delete it (a state
mutation, including a possible auto-save) and return None; otherwise
return store.get(key). -/
def get (w : World) (now : Int) (key : String) : World × Option String :=
  if w.redis.is_expired now key then
    (delete w key, none)
  else
    (w, dictGet w.redis.store key)

/-- PyRedis.load (lines 111-126): a missing file is caught and ignored;
a JSON decode error propagates with the state untouched; then store is
assigned from the store field, and only afterwards expirations from the
expirations field, so a KeyError on a missing expirations field escapes
after store has already been replaced. -/
def load (w : World) : World × Option PyError :=
  match w.file with
  | .missing => (w, none)
  | .notJson => (w, some .jsonDecodeError)
  | .json doc =>
      match doc.storeField with
      | none => (w, some (.keyError ("store")))
      | some s =>
          let w1 := { w with redis := { w.redis with store := s } }
          match doc.expirationsField with
          | none => (w1, some (.keyError ("expirations")))
          | some e =>
              ({ w1 with redis := { w1.redis with expirations := e } }, none)

end PyRedis

/-! ### Claim theorems live at the end of the file -/

/-! ### Lemmas about the dict model -/

theorem dictGet_dictSet_self {β : Type} (d : List (String × β)) (k : String)
    (v : β) : dictGet (dictSet d k v) k = some v := by
  induction d with
  | nil => simp [dictSet, dictGet]
  | cons p rest ih =>
      obtain ⟨k', v'⟩ := p
      by_cases h : k' = k
      · simp [dictSet, h, dictGet]
      · simp [dictSet, h, dictGet, ih]

theorem dictGet_dictSet_ne {β : Type} (d : List (String × β)) (k a : String)
    (v : β) (h : a ≠ k) : dictGet (dictSet d k v) a = dictGet d a := by
  have h' : ¬k = a := fun hh => h hh.symm
  induction d with
  | nil => simp [dictSet, dictGet, h']
  | cons p rest ih =>
      obtain ⟨k', v'⟩ := p
      by_cases hk : k' = k
      · subst hk
        simp [dictSet, dictGet, h']
      · simp [dictSet, hk, dictGet, ih]

theorem dictGet_dictDel_self {β : Type} (d : List (String × β)) (k : String) :
    dictGet (dictDel d k) k = none := by
  induction d with
  | nil => simp [dictDel, dictGet]
  | cons p rest ih =>
      obtain ⟨k', v'⟩ := p
      by_cases h : k' = k
      · simp [dictDel, h, ih]
      · simp [dictDel, h, dictGet, ih]

theorem dictContains_dictDel_self {β : Type} (d : List (String × β))
    (k : String) : dictContains (dictDel d k) k = false := by
  simp [dictContains, dictGet_dictDel_self]

theorem dictContains_dictSet_self {β : Type} (d : List (String × β))
    (k : String) (v : β) : dictContains (dictSet d k v) k = true := by
  simp [dictContains, dictGet_dictSet_self]

theorem dictContains_dictSet_of {β : Type} (d : List (String × β))
    (k a : String) (v : β) (h : dictContains d a = true) :
    dictContains (dictSet d k v) a = true := by
  by_cases ha : a = k
  · subst ha; exact dictContains_dictSet_self d a v
  · simpa [dictContains, dictGet_dictSet_ne d k a v ha] using h

/-! ### Lemmas about the operations -/

namespace PyRedis

theorem setPairs_config (r : PyRedis) (now : Int) (ttl : Option Int)
    (kvs : List String) :
    (setPairs r now ttl kvs).auto_save_enabled = r.auto_save_enabled ∧
    (setPairs r now ttl kvs).expiration_time = r.expiration_time := by
  induction kvs generalizing r with
  | nil => exact ⟨rfl, rfl⟩
  | cons kv rest ih =>
      cases h : decodePair kv with
      | none => simpa [setPairs, h] using ih r
      | some p =>
          obtain ⟨k, v⟩ := p
          simpa [setPairs, h] using
            ih { r with
                  store := dictSet r.store k v
                  expirations :=
                    dictSet r.expirations k (now + ttl.getD r.expiration_time) }

theorem redis_set (w : World) (now : Int) (kvs : List String)
    (ttl : Option Int) :
    (set w now kvs ttl).redis = setPairs w.redis now ttl kvs := by
  by_cases h : (setPairs w.redis now ttl kvs).auto_save_enabled
  · simp [set, save, h]
  · simp [set, save, h]

theorem redis_delete (w : World) (key : String) :
    (delete w key).redis =
      (if dictContains w.redis.store key then
        { w.redis with
          store := dictDel w.redis.store key
          expirations :=
            if dictContains w.redis.expirations key then
              dictDel w.redis.expirations key
            else w.redis.expirations }
      else w.redis) := by
  by_cases hc : dictContains w.redis.store key <;>
    by_cases ha : w.redis.auto_save_enabled <;>
      simp [delete, save, hc, ha]

theorem setPairs_store_contains_of (r : PyRedis) (now : Int)
    (ttl : Option Int) (kvs : List String) (a : String)
    (h : dictContains r.store a = true) :
    dictContains (setPairs r now ttl kvs).store a = true := by
  induction kvs generalizing r with
  | nil => exact h
  | cons kv rest ih =>
      cases hd : decodePair kv with
      | none => simpa [setPairs, hd] using ih r h
      | some p =>
          obtain ⟨k, v⟩ := p
          simp only [setPairs, hd]
          exact ih _ (dictContains_dictSet_of _ k a v h)

theorem setPairs_expirations_contains_of (r : PyRedis) (now : Int)
    (ttl : Option Int) (kvs : List String) (a : String)
    (h : dictContains r.expirations a = true) :
    dictContains (setPairs r now ttl kvs).expirations a = true := by
  induction kvs generalizing r with
  | nil => exact h
  | cons kv rest ih =>
      cases hd : decodePair kv with
      | none => simpa [setPairs, hd] using ih r h
      | some p =>
          obtain ⟨k, v⟩ := p
          simp only [setPairs, hd]
          exact ih _ (dictContains_dictSet_of _ k a _ h)

theorem setPairs_mem_contains (r : PyRedis) (now : Int) (ttl : Option Int)
    (kvs : List String) (kv k v : String) (hm : kv ∈ kvs)
    (hd : decodePair kv = some (k, v)) :
    dictContains (setPairs r now ttl kvs).store k = true ∧
    dictContains (setPairs r now ttl kvs).expirations k = true := by
  induction kvs generalizing r with
  | nil => cases hm
  | cons kv' rest ih =>
      rcases List.mem_cons.mp hm with heq | hmem
      · subst heq
        simp only [setPairs, hd]
        exact ⟨setPairs_store_contains_of _ now ttl rest k
                 (dictContains_dictSet_self r.store k v),
               setPairs_expirations_contains_of _ now ttl rest k
                 (dictContains_dictSet_self r.expirations k _)⟩
      · cases hd' : decodePair kv' with
        | none => simp only [setPairs, hd']; exact ih _ hmem
        | some p =>
            obtain ⟨k', v'⟩ := p
            simp only [setPairs, hd']
            exact ih _ hmem

theorem setPairs_filter (r : PyRedis) (now : Int) (ttl : Option Int)
    (kvs : List String) :
    setPairs r now ttl kvs =
      setPairs r now ttl (kvs.filter (fun kv => (decodePair kv).isSome)) := by
  induction kvs generalizing r with
  | nil => rfl
  | cons kv rest ih =>
      cases hd : decodePair kv with
      | none => simp [setPairs, hd, List.filter_cons, ih]
      | some p =>
          obtain ⟨k, v⟩ := p
          simp [setPairs, hd, List.filter_cons, ih]

theorem setPairs_single (r : PyRedis) (now : Int) (ttl : Option Int)
    (kv k v : String) (h : decodePair kv = some (k, v)) :
    setPairs r now ttl [kv] =
      { r with
        store := dictSet r.store k v
        expirations :=
          dictSet r.expirations k (now + ttl.getD r.expiration_time) } := by
  simp [setPairs, h]

end PyRedis

/-! ### Claim theorems -/

namespace PyRedis

/-- C3: saving any store state and loading the written file into a fresh
(empty) store succeeds and reproduces both the key-to-value mapping and
the key-to-expiration mapping of the original, for every key (so expired
but unaccessed keys round-trip as well). -/
theorem save_load_roundtrip (r : PyRedis) (f : FileState) (n m : Nat) :
    (let w1 := save { redis := r, file := f, writeCount := n }
     let res := load { redis := init, file := w1.file, writeCount := m }
     res.2 = none ∧
     (∀ k, dictGet res.1.redis.store k = dictGet r.store k) ∧
     (∀ k, dictGet res.1.redis.expirations k = dictGet r.expirations k)) :=
  ⟨rfl, fun _ => rfl, fun _ => rfl⟩

/-- C6: a key that is present in the store mapping but has no expirations
entry is treated as never expiring: get returns the stored value at every
time and leaves the whole world (both mappings and the file) unchanged. -/
theorem get_nonexpiring_key (w : World) (now : Int) (k v : String)
    (h1 : dictGet w.redis.expirations k = none)
    (h2 : dictGet w.redis.store k = some v) :
    get w now k = (w, some v) := by
  simp [get, is_expired, h1, h2]

/-- C6 witness: after loading a file holding a store entry for x and an
empty expirations object, get on x returns the value at a late time and
changes nothing. -/
theorem get_nonexpiring_key_witness :
    get ((load { redis := init,
                 file := .json { storeField := some [(("x"), ("1"))],
                                 expirationsField := some [] },
                 writeCount := 0 }).1) 999999999 ("x") =
      ((load { redis := init,
               file := .json { storeField := some [(("x"), ("1"))],
                               expirationsField := some [] },
               writeCount := 0 }).1, some ("1")) :=
  get_nonexpiring_key _ 999999999 ("x") ("1") (by decide) (by decide)

/-- C4: with auto-save enabled, after any set or delete the dump file
holds exactly the serialization of the current in-memory state and exactly
one write happened; with auto-save disabled, set and delete leave the file
and the write count untouched (no file write at all). -/
theorem autosave_write_semantics (w : World) (now : Int) (kvs : List String)
    (ttl : Option Int) (k : String) :
    ((set w now kvs ttl).file, (set w now kvs ttl).writeCount) =
      (if w.redis.auto_save_enabled then
        (serialize (set w now kvs ttl).redis, w.writeCount + 1)
      else (w.file, w.writeCount)) ∧
    ((delete w k).file, (delete w k).writeCount) =
      (if w.redis.auto_save_enabled then
        (serialize (delete w k).redis, w.writeCount + 1)
      else (w.file, w.writeCount)) := by
  constructor
  · have hf := (setPairs_config w.redis now ttl kvs).1
    by_cases ha : w.redis.auto_save_enabled
    · simp [set, save, serialize, hf, ha, redis_set]
    · simp [set, save, hf, ha]
  · by_cases hc : dictContains w.redis.store k <;>
      by_cases ha : w.redis.auto_save_enabled <;>
        simp [delete, save, serialize, hc, ha]

/-- C1 evidence: on a file that is a valid JSON object holding a store
field but no expirations field, load raises KeyError only after the store
mapping has already been replaced by the file content, so the in-memory
state is partially overwritten (store changed, expirations kept), contrary
to the no-partial-overwrite claim.  On a file that is not valid JSON, or a
JSON object missing the store field, the error is surfaced with the state
untouched. -/
theorem load_overwrites_store_on_missing_expirations :
    (let w0 : World :=
      { redis := { store := [(("b"), ("2"))]
                   expirations := [(("b"), (5 : Int))]
                   auto_save_enabled := false
                   expiration_time := 10
                   verbose := false }
        file := .json { storeField := some [(("a"), ("1"))]
                        expirationsField := none }
        writeCount := 0 }
     let res := load w0
     res.2 = some (PyError.keyError ("expirations")) ∧
     res.1.redis.store = [(("a"), ("1"))] ∧
     res.1.redis.store ≠ w0.redis.store ∧
     res.1.redis.expirations = w0.redis.expirations ∧
     (load { w0 with file := .notJson } = (({ w0 with file := .notJson }), some PyError.jsonDecodeError)) ∧
     (load { w0 with file := .json { storeField := none, expirationsField := none } } =
       (({ w0 with file := .json { storeField := none, expirationsField := none } }),
        some (PyError.keyError ("store"))))) := by
  decide

/-- C2 counterexample: with the key x present in expirations but absent
from store, delete(x) leaves the stale expirations entry in place, so
after the call x is not absent from both mappings. -/
theorem delete_stale_expiration_counterexample :
    dictContains
      (delete
        { redis := { store := []
                     expirations := [(("x"), (5 : Int))]
                     auto_save_enabled := false
                     expiration_time := 10
                     verbose := false }
          file := .missing
          writeCount := 0 } ("x")).redis.expirations ("x") = true := by
  decide

/-- C2 amended: after delete(k) the key is always absent from the store
mapping, and whenever k was present in store before the call it is also
absent from expirations afterwards; but when k is absent from store,
delete leaves both mappings unchanged, so a stale expirations-only entry
(possible after loading a hand-edited snapshot) survives. -/
theorem delete_removes_key (w : World) (k : String) :
    dictContains (delete w k).redis.store k = false ∧
    (dictContains w.redis.store k = true →
      dictContains (delete w k).redis.expirations k = false) ∧
    (dictContains w.redis.store k = false → (delete w k).redis = w.redis) := by
  rw [redis_delete w k]
  by_cases hc : dictContains w.redis.store k = true
  · refine ⟨?_, fun _ => ?_, fun hf => absurd hc (by simp [hf])⟩
    · simp [hc, dictContains_dictDel_self]
    · by_cases he : dictContains w.redis.expirations k = true
      · simp [hc, he, dictContains_dictDel_self]
      · simp only [hc, if_true]
        simp only [Bool.not_eq_true] at he
        simp [he]
  · have hf : dictContains w.redis.store k = false := by
      simpa [Bool.not_eq_true] using hc
    refine ⟨?_, fun ht => absurd ht hc, fun _ => ?_⟩
    · simp [hf]
    · simp [hf]

/-- C2 witness: deleting a key present in both mappings removes it from
both. -/
theorem delete_removes_key_witness :
    dictContains
      (delete
        { redis := { store := [(("x"), ("1"))]
                     expirations := [(("x"), (5 : Int))]
                     auto_save_enabled := false
                     expiration_time := 10
                     verbose := false }
          file := .missing
          writeCount := 0 } ("x")).redis.store ("x") = false ∧
    dictContains
      (delete
        { redis := { store := [(("x"), ("1"))]
                     expirations := [(("x"), (5 : Int))]
                     auto_save_enabled := false
                     expiration_time := 10
                     verbose := false }
          file := .missing
          writeCount := 0 } ("x")).redis.expirations ("x") = false :=
  ⟨(delete_removes_key _ ("x")).1, (delete_removes_key _ ("x")).2.1 (by decide)⟩

/-- C5: a key set with ttl zero or negative is expired at any strictly
later time, so the very next get returns None and removes the key from
both the store mapping and the expirations mapping. -/
theorem set_nonpositive_ttl_get_removes (w : World) (now tnext ttl : Int)
    (kv k v : String) (hd : decodePair kv = some (k, v)) (ht : ttl ≤ 0)
    (hn : now < tnext) :
    (get (set w now [kv] (some ttl)) tnext k).2 = none ∧
    dictContains (get (set w now [kv] (some ttl)) tnext k).1.redis.store k
      = false ∧
    dictContains
      (get (set w now [kv] (some ttl)) tnext k).1.redis.expirations k
      = false := by
  have hr : (set w now [kv] (some ttl)).redis =
      { w.redis with
        store := dictSet w.redis.store k v
        expirations := dictSet w.redis.expirations k (now + ttl) } := by
    rw [redis_set, setPairs_single _ _ _ _ _ _ hd]
    simp
  have hexp :
      dictGet (set w now [kv] (some ttl)).redis.expirations k
        = some (now + ttl) := by
    rw [hr]
    exact dictGet_dictSet_self _ _ _
  have hexpired : (set w now [kv] (some ttl)).redis.is_expired tnext k
      = true := by
    simp only [is_expired, hexp, decide_eq_true_eq]
    omega
  have hg : get (set w now [kv] (some ttl)) tnext k =
      (delete (set w now [kv] (some ttl)) k, none) := by
    simp [get, hexpired]
  have hcs : dictContains (set w now [kv] (some ttl)).redis.store k
      = true := by
    rw [hr]
    exact dictContains_dictSet_self _ _ _
  have hce : dictContains (set w now [kv] (some ttl)).redis.expirations k
      = true := by
    rw [hr]
    exact dictContains_dictSet_self _ _ _
  rw [hg]
  refine ⟨rfl, ?_, ?_⟩
  · rw [redis_delete]
    simp [hcs, dictContains_dictDel_self]
  · rw [redis_delete]
    simp [hcs, hce, dictContains_dictDel_self]

/-- C5 witness: set a with ttl 0 at time 100, get at time 101 returns None
and the key is gone from both mappings. -/
theorem set_nonpositive_ttl_get_removes_witness :
    (get (set { redis := init, file := .missing, writeCount := 0 }
            100 [("a b")] (some 0)) 101 ("a")).2 = none ∧
    dictContains
      (get (set { redis := init, file := .missing, writeCount := 0 }
              100 [("a b")] (some 0)) 101 ("a")).1.redis.store ("a")
      = false ∧
    dictContains
      (get (set { redis := init, file := .missing, writeCount := 0 }
              100 [("a b")] (some 0)) 101 ("a")).1.redis.expirations ("a")
      = false :=
  set_nonpositive_ttl_get_removes _ 100 101 0 ("a b") ("a") ("b")
    (by decide) (by decide) (by decide)

/-- C9: a key set with a strictly positive ttl and read at any time not
past its expiry returns the stored value, and the read changes nothing. -/
theorem set_positive_ttl_get_returns (w : World) (now tnext ttl : Int)
    (kv k v : String) (hd : decodePair kv = some (k, v)) (ht : 0 < ttl)
    (hn : tnext ≤ now + ttl) :
    get (set w now [kv] (some ttl)) tnext k =
      (set w now [kv] (some ttl), some v) := by
  have hr : (set w now [kv] (some ttl)).redis =
      { w.redis with
        store := dictSet w.redis.store k v
        expirations := dictSet w.redis.expirations k (now + ttl) } := by
    rw [redis_set, setPairs_single _ _ _ _ _ _ hd]
    simp
  have hexp :
      dictGet (set w now [kv] (some ttl)).redis.expirations k
        = some (now + ttl) := by
    rw [hr]
    exact dictGet_dictSet_self _ _ _
  have hnot : (set w now [kv] (some ttl)).redis.is_expired tnext k
      = false := by
    simp only [is_expired, hexp, decide_eq_false_iff_not]
    omega
  have hv : dictGet (set w now [kv] (some ttl)).redis.store k = some v := by
    rw [hr]
    exact dictGet_dictSet_self _ _ _
  simp [get, hnot, hv]

/-- C9 witness: set a with ttl 50 at time 100, get at time 120 returns b. -/
theorem set_positive_ttl_get_returns_witness :
    get (set { redis := init, file := .missing, writeCount := 0 }
           100 [("a b")] (some 50)) 120 ("a") =
      (set { redis := init, file := .missing, writeCount := 0 }
         100 [("a b")] (some 50), some ("b")) :=
  set_positive_ttl_get_returns _ 100 120 50 ("a b") ("a") ("b")
    (by decide) (by decide) (by decide)

/-- C10: with auto-save enabled, get on a key whose expirations entry is
in the past performs a snapshot write (get calls delete, and delete saves
unconditionally when the flag is set): the write count goes up by one and
the file holds the serialization of the resulting state, even when the key
is absent from the store mapping. -/
theorem get_expired_triggers_autosave (w : World) (now t : Int) (k : String)
    (ha : w.redis.auto_save_enabled = true)
    (he : dictGet w.redis.expirations k = some t)
    (hn : t < now) :
    (get w now k).1.writeCount = w.writeCount + 1 ∧
    (get w now k).1.file = serialize (get w now k).1.redis := by
  have hexp : w.redis.is_expired now k = true := by
    simp only [is_expired, he, decide_eq_true_eq]
    omega
  have hg : get w now k = (delete w k, none) := by
    simp [get, hexp]
  rw [hg]
  by_cases hc : dictContains w.redis.store k = true
  · simp [delete, save, serialize, hc, ha]
  · simp [delete, save, serialize, hc, ha]

/-- C10 witness: a state whose store is empty but whose expirations holds
a past entry for x; get on x writes a snapshot even though nothing in the
mappings changed. -/
theorem get_expired_triggers_autosave_witness :
    (get { redis := { store := []
                      expirations := [(("x"), (-3 : Int))]
                      auto_save_enabled := true
                      expiration_time := 10
                      verbose := true }
           file := .missing
           writeCount := 0 } 0 ("x")).1.writeCount = 0 + 1 ∧
    (get { redis := { store := []
                      expirations := [(("x"), (-3 : Int))]
                      auto_save_enabled := true
                      expiration_time := 10
                      verbose := true }
           file := .missing
           writeCount := 0 } 0 ("x")).1.file =
      serialize
        (get { redis := { store := []
                          expirations := [(("x"), (-3 : Int))]
                          auto_save_enabled := true
                          expiration_time := 10
                          verbose := true }
               file := .missing
               writeCount := 0 } 0 ("x")).1.redis :=
  get_expired_triggers_autosave _ 0 (-3) ("x")
    (by decide) (by decide) (by decide)

/-- C7: a batch set behaves exactly as the batch of its well-formed pairs
(a pair that does not decode into two tokens contributes nothing and does
not abort the rest, since the loop catches its ValueError), and every
well-formed pair of the batch ends up present in the store mapping with an
expirations entry set. -/
theorem set_batch_skips_malformed (r : PyRedis) (now : Int)
    (ttl : Option Int) (kvs : List String) :
    setPairs r now ttl kvs =
      setPairs r now ttl (kvs.filter (fun kv => (decodePair kv).isSome)) ∧
    (∀ kv, kv ∈ kvs → ∀ k v, decodePair kv = some (k, v) →
      dictContains (setPairs r now ttl kvs).store k = true ∧
      dictContains (setPairs r now ttl kvs).expirations k = true) :=
  ⟨setPairs_filter r now ttl kvs,
   fun kv hm k v hd => setPairs_mem_contains r now ttl kvs kv k v hm hd⟩

/-- C7 witness: in a batch with a malformed middle pair, the first valid
pair is stored with an expiration. -/
theorem set_batch_skips_malformed_witness :
    dictContains
      (setPairs init 0 none [("a b"), ("nope"), ("c, d")]).store ("a")
      = true ∧
    dictContains
      (setPairs init 0 none [("a b"), ("nope"), ("c, d")]).expirations ("a")
      = true :=
  (set_batch_skips_malformed init 0 none
      [("a b"), ("nope"), ("c, d")]).2 ("a b") (by decide) ("a") ("b")
    (by decide)

/-- C8: the pair tokenizer accepts both the whitespace-separated and the
comma-separated encoding, with the documented precedence: when comma-space
occurs in the string the split on comma-space wins, otherwise the string
is split on whitespace; in either case the pair is accepted exactly when
the chosen split yields two tokens. -/
theorem decodePair_precedence (kv : String) :
    decodePair ("key value") = some ((("key")), (("value"))) ∧
    decodePair ("key, value") = some ((("key")), (("value"))) ∧
    (listHasSub commaSpace kv.toList = true →
      decodePair kv =
        (match splitCS kv.toList with
         | [k, v] => some (⟨k⟩, ⟨v⟩)
         | _ => none)) ∧
    (listHasSub commaSpace kv.toList = false →
      decodePair kv =
        (match splitWs kv.toList with
         | [k, v] => some (⟨k⟩, ⟨v⟩)
         | _ => none)) := by
  refine ⟨by decide, by decide, fun h => ?_, fun h => ?_⟩
  · simp only [String.toList] at h
    simp [decodePair, h]
  · simp only [String.toList] at h
    simp [decodePair, h]

/-- C8 witness: a string holding comma-space is decoded by the comma-space
split. -/
theorem decodePair_precedence_witness :
    decodePair ("a, b") =
      (match splitCS (String.toList ("a, b")) with
       | [k, v] => some (⟨k⟩, ⟨v⟩)
       | _ => none) :=
  (decodePair_precedence ("a, b")).2.2.1 (by decide)

end PyRedis
